import Mathlib

/-!
Shallow embedding of the `autoppia_web_agent_example` evaluation harness
(`src/eval.py` and `src/compare_eval.py`).

JSON values decoded by Python's `json.loads` are modelled by the inductive
type `Json`.  JSON numbers are modelled as integers: no verified claim
depends on a non-integral numeric value.  Python's `None` and JSON `null`
are identified (as they are in Python after `json.loads`).
-/

namespace AutoppiaEval

inductive Json where
  | null
  | bool (b : Bool)
  | num (n : Int)
  | str (s : String)
  | arr (items : List Json)
  | obj (fields : List (String × Json))
deriving Repr

/-- First-match field lookup in an object, modelling Python `dict` access
(JSON objects have unique keys, so first-match equals the dict lookup). -/
def lookupField : List (String × Json) → String → Option Json
  | [], _ => none
  | (k, v) :: rest, key => if k = key then some v else lookupField rest key

/-- `d.get(key)` on a Python dict holding JSON data: returns the stored value,
or `None` when the key is missing.  A stored JSON `null` is already `None` in
Python, so missing-key and stored-null are both `Json.null` here.  On a
non-dict the code never calls `.get`; we return `Json.null`. -/
def Json.pyGet : Json → String → Json
  | Json.obj fields, key => (lookupField fields key).getD Json.null
  | _, _ => Json.null

/-- Python truthiness of a JSON-decoded value. -/
def Json.truthy : Json → Bool
  | Json.null => false
  | Json.bool b => b
  | Json.num n => n != 0
  | Json.str s => s != ""
  | Json.arr items => !items.isEmpty
  | Json.obj fields => !fields.isEmpty

/-- `a or b` in Python: `a` when truthy, else `b`. -/
def Json.pyOr (a b : Json) : Json := if a.truthy then a else b

/-- `type(x).__name__` for a JSON-decoded Python value. -/
def Json.pyTypeName : Json → String
  | Json.null => "NoneType"
  | Json.bool _ => "bool"
  | Json.num _ => "int"
  | Json.str _ => "str"
  | Json.arr _ => "list"
  | Json.obj _ => "dict"

def Json.isObj : Json → Bool
  | Json.obj _ => true
  | _ => false

/-- `x is None` in Python (JSON null and Python None are identified). -/
def Json.isNull : Json → Bool
  | Json.null => true
  | _ => false

def Json.isArr : Json → Bool
  | Json.arr _ => true
  | _ => false

def Json.isStr : Json → Bool
  | Json.str _ => true
  | _ => false

/-- Python `repr` of a string.  Quote-escaping is not modelled (no claim
exercises strings containing quote characters). -/
def pyReprStr (s : String) : String := "\x27" ++ s ++ "\x27"

mutual

/-- Python `repr` of a JSON-decoded value (which is also `str()` of any
non-string such value). -/
def Json.pyRepr : Json → String
  | Json.null => "None"
  | Json.bool true => "True"
  | Json.bool false => "False"
  | Json.num n => toString n
  | Json.str s => pyReprStr s
  | Json.arr items => "[" ++ pyReprItems items ++ "]"
  | Json.obj fields => "\x7b" ++ pyReprFields fields ++ "\x7d"

/-- Comma-joined `repr`s of list elements. -/
def pyReprItems : List Json → String
  | [] => ""
  | [j] => Json.pyRepr j
  | j :: rest => Json.pyRepr j ++ ", " ++ pyReprItems rest

/-- Comma-joined `repr(key): repr(value)` pairs of a dict. -/
def pyReprFields : List (String × Json) → String
  | [] => ""
  | [(k, v)] => pyReprStr k ++ ": " ++ Json.pyRepr v
  | (k, v) :: rest => pyReprStr k ++ ": " ++ Json.pyRepr v ++ ", " ++ pyReprFields rest

end

/-- Python `str()` of a JSON-decoded value. -/
def Json.pyStr : Json → String
  | Json.str s => s
  | j => j.pyRepr

/-- Decimal digit value of a character, if it is an ASCII digit. -/
def digitVal (c : Char) : Option Nat :=
  if 48 ≤ c.toNat ∧ c.toNat ≤ 57 then some (c.toNat - 48) else none

/-- Accumulating base-10 parse over a digit run; fails on a non-digit. -/
def parseDigitsAux : List Char → Nat → Option Nat
  | [], acc => some acc
  | c :: rest, acc =>
      match digitVal c with
      | some d => parseDigitsAux rest (acc * 10 + d)
      | none => none

/-- Python `int()` parsing of a string: an optional sign followed by one or
more ASCII digits (surrounding whitespace and underscores not modelled; no
claim exercises them). -/
def pyParseInt (s : String) : Option Int :=
  match s.toList with
  | [] => none
  | c :: rest =>
      if c = Char.ofNat 45 then
        match rest with
        | [] => none
        | _ => (parseDigitsAux rest 0).map fun v => -(v : Int)
      else if c = Char.ofNat 43 then
        match rest with
        | [] => none
        | _ => (parseDigitsAux rest 0).map fun v => (v : Int)
      else (parseDigitsAux (c :: rest) 0).map fun v => (v : Int)

/-- Python `int()` of a JSON-decoded value: exact on bools and ints, parses
integer strings, raises (`Except.error`) otherwise.  Error message text is
approximate; no claim inspects it. -/
def Json.pyInt : Json → Except String Int
  | Json.bool b => .ok (if b then 1 else 0)
  | Json.num n => .ok n
  | Json.str s =>
      match pyParseInt s with
      | some n => .ok n
      | none => .error ("invalid literal for int() with base 10: " ++ pyReprStr s)
  | j => .error ("int() argument must be a string or a number, not " ++ j.pyTypeName)

/-! ### Shape validator (`eval.py`, `_validate_actions_shape`) -/

/-- The per-element loop of `_validate_actions_shape`:
`for idx, action in enumerate(actions): ...`, carrying the running index. -/
def checkActions : Nat → List Json → Bool × String
  | _, [] => (true, "ok")
  | idx, action :: rest =>
    if action.isObj then
      let t := action.pyGet "type"
      if t.isNull || t.isStr then checkActions (idx + 1) rest
      else (false, "actions[" ++ toString idx ++ "].type must be a string when present")
    else (false, "actions[" ++ toString idx ++ "] is not an object")

/-- `_validate_actions_shape(payload)` from `eval.py`. -/
def validate_actions_shape (payload : Json) : Bool × String :=
  if payload.isObj then
    match payload.pyGet "actions" with
    | Json.arr actions => checkActions 0 actions
    | _ => (false, "missing or invalid \x27actions\x27 list")
  else
    (false, "response is not an object (" ++ payload.pyTypeName ++ ")")

example : validate_actions_shape (Json.obj [("actions", Json.arr [])]) = (true, "ok") := rfl

example :
    validate_actions_shape (Json.obj [("actions", Json.arr [Json.obj [("type", Json.null)]])])
      = (true, "ok") := rfl

example : validate_actions_shape (Json.num 7) = (false, "response is not an object (int)") := rfl

example : validate_actions_shape (Json.obj [("x", Json.num 1)])
    = (false, "missing or invalid \x27actions\x27 list") := rfl

/-! ### Task source (`eval.py`, `_default_tasks` and `_load_tasks`) -/

/-- A normalized task record, as built by `_load_tasks` / `_default_tasks`
(`history` entries are opaque JSON records). -/
structure Task where
  task_id : String
  prompt : String
  url : String
  snapshot_html : String
  step_index : Int
  history : List Json
deriving Repr

/-- One synthetic task of `_default_tasks`. -/
def defaultTask (i : Nat) : Task :=
  { task_id := "template-task-" ++ toString i
    prompt := "Template task for /act schema validation"
    url := "https://example.com"
    snapshot_html := "<html><body><button>Continue</button></body></html>"
    step_index := i
    history := [] }

/-- `_default_tasks(num_tasks)`: `max(1, int(num_tasks))` synthetic tasks. -/
def default_tasks (numTasks : Int) : List Task :=
  (List.range (max 1 numTasks).toNat).map defaultTask

/-- The loop body of `_load_tasks` for one retained (dict) entry at
enumerate-index `i`.  Python `int()` can raise, hence `Except`. -/
def loadTaskEntry (i : Nat) (item : Json) : Except String Task := do
  let stepIdx ← (Json.pyOr (item.pyGet "step_index") (Json.num 0)).pyInt
  pure
    { task_id := (Json.pyOr (item.pyGet "task_id") (Json.str ("task-" ++ toString i))).pyStr
      prompt := (Json.pyOr (item.pyGet "prompt") (Json.str "Template task")).pyStr
      url := (Json.pyOr (item.pyGet "url") (Json.str "https://example.com")).pyStr
      snapshot_html := (Json.pyOr (item.pyGet "snapshot_html") (Json.str "<html></html>")).pyStr
      step_index := stepIdx
      history := match item.pyGet "history" with
        | Json.arr h => h
        | _ => [] }

/-- The `for i, item in enumerate(data)` loop of `_load_tasks`: non-dict
entries are skipped, the enumerate index advances on every entry. -/
def loadTasksLoop : Nat → List Json → Except String (List Task)
  | _, [] => .ok []
  | i, item :: rest =>
    if item.isObj then do
      let t ← loadTaskEntry i item
      let ts ← loadTasksLoop (i + 1) rest
      pure (t :: ts)
    else loadTasksLoop (i + 1) rest

/-- `raw.get("tasks")` when it is a list, as tested by
`isinstance(raw, dict) and isinstance(raw.get("tasks"), list)`. -/
def tasksField : Json → Option (List Json)
  | Json.obj fields =>
      match lookupField fields "tasks" with
      | some (Json.arr data) => some data
      | _ => none
  | _ => none

/-- `_load_tasks(path, fallback_num_tasks)` from `eval.py`.  The file read
and JSON parse are external; `raw?` is the parsed JSON when a path was
given (`none` models a falsy `path`). -/
def load_tasks (raw? : Option Json) (fallbackNumTasks : Int) : Except String (List Task) :=
  match raw? with
  | none => .ok (default_tasks fallbackNumTasks)
  | some raw =>
    match tasksField raw with
    | some data => loadTasksLoop 0 data
    | none =>
      match raw with
      | Json.arr data => loadTasksLoop 0 data
      | _ => .error "tasks file must be a JSON list or \x7b\x27tasks\x27:[...]\x7d object"

/-! ### Single-run executor (`eval.py`, `run_eval`) -/

/-- Outcome of one awaited `_call_act`: either the returned
`{status, elapsed_ms, body}` record, or the raised exception's `str()`.
The HTTP exchange itself is external; `run_eval` is parameterized by an
oracle assigning an outcome to each (repeat, task) pair. -/
inductive CallOutcome where
  | success (status : Int) (elapsedMs : Int) (body : Json)
  | failure (error : String)
deriving Repr

/-- One episode record of `run_eval` (`result` dict in the code); fields
that a code path never sets are `none`. -/
structure CallResult where
  repeat_index : Nat
  task_index : Nat
  task_id : Json
  ok : Bool
  status : Option Int := none
  elapsed_ms : Option Int := none
  shape_ok : Option Bool := none
  shape_msg : Option String := none
  action_count : Option Nat := none
  error : Option String := none
deriving Repr

/-- The try/except body of `run_eval` for one (repeat, task) pair.  On an
exception the record keeps only the pre-set base fields plus `error` (the
only raising statement is the awaited call itself, before any field beyond
the base ones is assigned). -/
def runCall (r idx : Nat) (task : Json) (outcome : CallOutcome) : CallResult :=
  match outcome with
  | .failure e =>
      { repeat_index := r, task_index := idx, task_id := task.pyGet "task_id"
        ok := false, error := some e }
  | .success st el body =>
      let sv := validate_actions_shape body
      let actions := if body.isObj then body.pyGet "actions" else Json.arr []
      let actionCount : Nat := match actions with
        | Json.arr xs => xs.length
        | _ => 0
      { repeat_index := r, task_index := idx, task_id := task.pyGet "task_id"
        ok := (st == 200) && sv.1
        status := some st, elapsed_ms := some el
        shape_ok := some sv.1, shape_msg := some sv.2
        action_count := some actionCount }

/-- `summary` dict of `run_eval`.  Rates and latencies are exact rationals
here (Python uses floats; no claim depends on float rounding artifacts). -/
structure RunSummary where
  total_calls : Nat
  ok_calls : Nat
  ok_rate : ℚ
  avg_latency_ms : ℚ
deriving Repr, DecidableEq

/-- The dict returned by `run_eval` (the Python field `repeat` is named
`repeatArg` here). -/
structure RunResult where
  agent_base_url : String
  num_tasks : Nat
  repeatArg : Int
  episodes : List CallResult
  summary : RunSummary
deriving Repr

/-- `int(ep.get("elapsed_ms") or 0)`: a missing `elapsed_ms` (and a zero
one) both contribute 0. -/
def elapsedOrZero (ep : CallResult) : Int := ep.elapsed_ms.getD 0

/-- Python `round(x, 2)` modelled over the rationals (round to the nearest
multiple of 1/100; binary-float tie behavior is not modelled). -/
def roundTo2 (q : ℚ) : ℚ := (round (q * 100) : ℤ) / 100

/-- The episode accumulation of `run_eval`: the nested loop
`for r in range(max(1, int(repeat))): for idx, task in enumerate(tasks)`,
appending one `CallResult` per iteration. -/
def mkEpisodes (tasks : List Json) (repeatArg : Int)
    (oracle : Nat → Nat → CallOutcome) : List CallResult :=
  (List.range (max 1 repeatArg).toNat).flatMap fun r =>
    tasks.enum.map fun p => runCall r p.1 p.2 (oracle r p.1)

/-- The summary reduction at the end of `run_eval`: `ok_count`,
`avg_latency` (guarded against empty episodes) and the `summary` dict. -/
def mkSummary (episodes : List CallResult) : RunSummary :=
  let okCount := episodes.countP fun ep => ep.ok
  let avg : ℚ := if episodes.isEmpty then 0
    else ((episodes.map fun ep => (elapsedOrZero ep : ℚ)).sum) / episodes.length
  { total_calls := episodes.length
    ok_calls := okCount
    ok_rate := if episodes.isEmpty then 0 else (okCount : ℚ) / episodes.length
    avg_latency_ms := roundTo2 avg }

/-- `run_eval` from `eval.py`: sequential loop over
`range(max(1, int(repeat)))` and `enumerate(tasks)`, then the summary
reduction. -/
def run_eval (agentBaseUrl : String) (tasks : List Json) (repeatArg : Int)
    (oracle : Nat → Nat → CallOutcome) : RunResult :=
  { agent_base_url := agentBaseUrl
    num_tasks := tasks.length
    repeatArg := repeatArg
    episodes := mkEpisodes tasks repeatArg oracle
    summary := mkSummary (mkEpisodes tasks repeatArg oracle) }

/-! ### Multi-run comparator (`compare_eval.py`) -/

/-- `RunSpec` dataclass from `compare_eval.py`. -/
structure RunSpec where
  provider : String
  model : String
deriving Repr, DecidableEq

/-- A character matched by the slug regex's allowed class `[a-z0-9._-]`. -/
def isSlugSafe (c : Char) : Bool :=
  (97 ≤ c.toNat && c.toNat ≤ 122) || (48 ≤ c.toNat && c.toNat ≤ 57)
    || c = Char.ofNat 46 || c = Char.ofNat 95 || c = Char.ofNat 45

/-- `re.sub(r"[^a-z0-9._-]+", "_", s)`: each maximal run of characters
outside the class is replaced by one underscore.  When a disallowed
character is hit, the rest of its maximal run is dropped via `dropWhile`. -/
def collapseUnsafe : List Char → List Char
  | [] => []
  | c :: rest =>
    if isSlugSafe c then c :: collapseUnsafe rest
    else Char.ofNat 95 :: collapseUnsafe (rest.dropWhile fun d => !isSlugSafe d)
termination_by cs => cs.length
decreasing_by
  · simp
  · exact Nat.lt_succ_of_le (List.dropWhile_sublist _).length_le

/-- `RunSpec.slug`: lowercase `provider__model`, then the regex
substitution.  Python `str.lower()` is modelled by per-character ASCII
lowercasing (`Char.toLower`); no claim involves non-ASCII input. -/
def RunSpec.slug (spec : RunSpec) : String :=
  String.mk (collapseUnsafe ((spec.provider ++ "__" ++ spec.model).toList.map Char.toLower))

/-- Python `float()` of a JSON-decoded value, over the rationals (exact on
ints and bools, error otherwise; numeric strings are not exercised by any
claim).  Error text is approximate. -/
def Json.pyFloat : Json → Except String ℚ
  | Json.bool b => .ok (if b then 1 else 0)
  | Json.num n => .ok (n : ℚ)
  | j => .error ("could not convert to float: " ++ j.pyTypeName)

/-- One row of the comparator's `summary_rows`. -/
structure CompareRow where
  provider : String
  model : String
  ok_calls : Int
  total_calls : Int
  ok_rate : ℚ
  avg_latency_ms : ℚ
deriving Repr, DecidableEq

/-- Row construction from a sub-run's persisted payload:
`s = payload.get("summary") or {}` then the four `int(... or 0)` /
`float(... or 0.0)` coercions.  (The code also stores the artifact path;
path strings are external to this model.) -/
def rowOfPayload (spec : RunSpec) (payload : Json) : Except String CompareRow := do
  let s := Json.pyOr (payload.pyGet "summary") (Json.obj [])
  let okCalls ← (Json.pyOr (s.pyGet "ok_calls") (Json.num 0)).pyInt
  let totalCalls ← (Json.pyOr (s.pyGet "total_calls") (Json.num 0)).pyInt
  let okRate ← (Json.pyOr (s.pyGet "ok_rate") (Json.num 0)).pyFloat
  let avgLatency ← (Json.pyOr (s.pyGet "avg_latency_ms") (Json.num 0)).pyFloat
  pure
    { provider := spec.provider, model := spec.model
      ok_calls := okCalls, total_calls := totalCalls
      ok_rate := okRate, avg_latency_ms := avgLatency }

/-- The sort key order of `summary_rows.sort(key=lambda r: (-r["ok_rate"],
r["avg_latency_ms"]))`: descending ok_rate, then ascending latency. -/
def rowLe (a b : CompareRow) : Bool :=
  decide (b.ok_rate < a.ok_rate)
    || (decide (a.ok_rate = b.ok_rate) && decide (a.avg_latency_ms ≤ b.avg_latency_ms))

/-- Insertion into a sorted row list (Python `list.sort` modelled by
insertion sort; stability is not relied on by any claim). -/
def insertRow (a : CompareRow) : List CompareRow → List CompareRow
  | [] => [a]
  | b :: rest => if rowLe b a then b :: insertRow a rest else a :: b :: rest

/-- Sorting of `summary_rows` before the aggregate is written. -/
def sortRows : List CompareRow → List CompareRow
  | [] => []
  | a :: rest => insertRow a (sortRows rest)

/-- Terminal state of the comparator's `main`: either the process exited
with a code (a sub-run's non-zero `returncode` re-raised as `SystemExit`,
or an uncaught coercion exception, which exits with code 1) before
`compare_summary.json` was written, or it completed with the sorted rows
and wrote the aggregate. -/
inductive CompareResult where
  | abort (code : Int)
  | done (rows : List CompareRow)
deriving Repr, DecidableEq

/-- `compare_summary.json` is written exactly when the loop completes. -/
def summaryWritten : CompareResult → Bool
  | .abort _ => false
  | .done _ => true

/-- The `for spec in run_specs` loop of `compare_eval.main`, with the
sub-run launches external: `exitCode i` is the `returncode` of the `i`-th
launched sub-run and `payload i` the JSON it persisted.  The second
component counts launched sub-runs. -/
def compareLoop (exitCode : Nat → Int) (payload : Nat → Json) :
    Nat → List RunSpec → List CompareRow → CompareResult × Nat
  | i, [], acc => (.done (sortRows acc.reverse), i)
  | i, spec :: rest, acc =>
    if exitCode i ≠ 0 then (.abort (exitCode i), i + 1)
    else
      match rowOfPayload spec (payload i) with
      | .error _ => (.abort 1, i + 1)
      | .ok row => compareLoop exitCode payload (i + 1) rest (row :: acc)

/-- `compare_eval.main` after CLI parsing: runs every configuration in
input order, aborting on the first non-zero sub-run exit. -/
def compare_main (specs : List RunSpec) (exitCode : Nat → Int) (payload : Nat → Json) :
    CompareResult × Nat :=
  compareLoop exitCode payload 0 specs []

/-! ### Concrete fixtures used by witnesses and counterexamples -/

/-- A task whose `task_id` is `"A"`. -/
def taskA : Json := Json.obj [("task_id", Json.str "A")]

/-- A task whose `task_id` is `"B"`. -/
def taskB : Json := Json.obj [("task_id", Json.str "B")]

/-- An oracle where every call returns status 200 with body
`{"actions": []}` in 5 ms. -/
def oracleOk : Nat → Nat → CallOutcome := fun _ _ =>
  CallOutcome.success 200 5 (Json.obj [("actions", Json.arr [])])

/-- An oracle where exactly the call at `(rf, idxf)` raises and every other
call succeeds. -/
def oracleFailAt (rf idxf : Nat) : Nat → Nat → CallOutcome := fun r idx =>
  if r = rf ∧ idx = idxf then CallOutcome.failure "Connection refused" else oracleOk r idx

/-! ### Helper lemmas -/

/-- Length of a constant-block-length `flatMap` over `List.range`. -/
theorem flatMapRange_length {α : Type} (f : Nat → List α) (L : Nat)
    (hL : ∀ r, (f r).length = L) : ∀ n, ((List.range n).flatMap f).length = n * L := by
  intro n
  induction n with
  | zero => simp
  | succ k ih =>
      rw [List.range_succ, List.flatMap_append, List.length_append, ih]
      simp [hL, Nat.succ_mul]

/-- Indexing into a constant-block-length `flatMap` over `List.range`. -/
theorem flatMapRange_getElem {α : Type} (f : Nat → List α) (L : Nat)
    (hL : ∀ r, (f r).length = L) :
    ∀ n r idx, r < n → idx < L → ((List.range n).flatMap f)[r * L + idx]? = (f r)[idx]? := by
  intro n
  induction n with
  | zero => intro r idx hr _; exact absurd hr (Nat.not_lt_zero r)
  | succ k ih =>
      intro r idx hr hidx
      rw [List.range_succ, List.flatMap_append]
      rcases Nat.lt_or_ge r k with h | h
      · rw [List.getElem?_append_left]
        · exact ih r idx h hidx
        · rw [flatMapRange_length f L hL k]
          have h1 : (r + 1) * L ≤ k * L := Nat.mul_le_mul_right L h
          have h2 : (r + 1) * L = r * L + L := by ring
          omega
      · have hrk : r = k := by omega
        subst hrk
        rw [List.getElem?_append_right (by rw [flatMapRange_length f L hL]; omega)]
        rw [flatMapRange_length f L hL]
        have hidx' : r * L + idx - r * L = idx := by omega
        rw [hidx']
        simp

/-- Each inner repetition of `mkEpisodes` produces one episode per task. -/
theorem mkEpisodes_block_length (tasks : List Json)
    (oracle : Nat → Nat → CallOutcome) (r : Nat) :
    (tasks.enum.map fun p => runCall r p.1 p.2 (oracle r p.1)).length = tasks.length := by
  simp [List.enum_length]

/-- `run_eval` always produces `max(1, repeat) * len(tasks)` episodes. -/
theorem mkEpisodes_length (tasks : List Json) (repeatArg : Int)
    (oracle : Nat → Nat → CallOutcome) :
    (mkEpisodes tasks repeatArg oracle).length = (max 1 repeatArg).toNat * tasks.length :=
  flatMapRange_length _ _ (mkEpisodes_block_length tasks oracle) _

/-- The episode at flattened position `r * len(tasks) + idx` is exactly the
call of repetition `r` on task `idx`. -/
theorem mkEpisodes_getElem (tasks : List Json) (repeatArg : Int)
    (oracle : Nat → Nat → CallOutcome) (r idx : Nat)
    (hr : r < (max 1 repeatArg).toNat) (hidx : idx < tasks.length) :
    (mkEpisodes tasks repeatArg oracle)[r * tasks.length + idx]?
      = some (runCall r idx (tasks.get ⟨idx, hidx⟩) (oracle r idx)) := by
  unfold mkEpisodes
  rw [flatMapRange_getElem _ tasks.length (mkEpisodes_block_length tasks oracle)
    _ r idx hr hidx]
  rw [List.getElem?_map, List.getElem?_enum]
  simp [List.getElem?_eq_getElem hidx]

/-- Field-by-field description of `mkSummary`. -/
theorem mkSummary_props (eps : List CallResult) :
    (mkSummary eps).total_calls = eps.length ∧
    (mkSummary eps).ok_calls = eps.countP (fun ep => ep.ok) ∧
    (0 : ℚ) ≤ (mkSummary eps).ok_rate ∧ (mkSummary eps).ok_rate ≤ 1 ∧
    (eps.length ≠ 0 →
      (mkSummary eps).ok_rate = ((eps.countP fun ep => ep.ok : ℕ) : ℚ) / (eps.length : ℚ)) ∧
    (eps.length = 0 → (mkSummary eps).ok_rate = 0 ∧ (mkSummary eps).avg_latency_ms = 0) := by
  rcases eps with _ | ⟨e, rest⟩
  · refine ⟨rfl, rfl, le_refl 0, by norm_num [mkSummary], fun h => absurd rfl h, fun _ => ⟨rfl, ?_⟩⟩
    simp [mkSummary, roundTo2]
  · have hc : (e :: rest).countP (fun ep => ep.ok) ≤ (e :: rest).length :=
      List.countP_le_length _
    have hrate : (mkSummary (e :: rest)).ok_rate
        = (((e :: rest).countP fun ep => ep.ok : ℕ) : ℚ) / ((e :: rest).length : ℚ) := by
      simp [mkSummary]
    refine ⟨rfl, rfl, ?_, ?_, fun _ => hrate, fun h => absurd h (by simp)⟩
    · rw [hrate]
      exact div_nonneg (Nat.cast_nonneg _) (Nat.cast_nonneg _)
    · rw [hrate]
      exact div_le_one_of_le₀ (Nat.cast_le.mpr hc) (Nat.cast_nonneg _)

/-- The stored average is within half a unit-in-the-last-place (1/200) of
the exact mean. -/
theorem roundTo2_close (q : ℚ) : |roundTo2 q - q| ≤ 1 / 200 := by
  have h : |(round (q * 100) : ℚ) - q * 100| ≤ 1 / 2 := by
    simpa [abs_sub_comm] using abs_sub_round (q * 100)
  have heq : roundTo2 q - q = ((round (q * 100) : ℚ) - q * 100) / 100 := by
    unfold roundTo2; ring
  rw [heq, abs_div]
  have h100 : |(100 : ℚ)| = 100 := by norm_num
  rw [h100]
  linarith

/-- `mkSummary`'s average latency is the rounded mean over all episodes,
a missing `elapsed_ms` contributing zero. -/
theorem mkSummary_avg (eps : List CallResult) :
    (mkSummary eps).avg_latency_ms
      = roundTo2 (if eps.length = 0 then 0
          else ((eps.map fun ep => ((ep.elapsed_ms.getD 0 : Int) : ℚ)).sum) / (eps.length : ℚ)) := by
  rcases eps with _ | ⟨e, rest⟩
  · rfl
  · simp [mkSummary, elapsedOrZero]

/-! ### Claim theorems -/

/-- Claim C3: the RunSummary returned by `run_eval` has `total_calls` equal
to the number of episodes, `ok_calls` equal to the number of episodes with
`ok = true`, `ok_rate` equal to `ok_calls / total_calls` (a value in
`[0,1]`), and with zero episodes both `ok_rate` and `avg_latency_ms` are 0
(no division by zero). -/
theorem C3_summary_fields (url : String) (tasks : List Json) (repeatArg : Int)
    (oracle : Nat → Nat → CallOutcome) :
    let res := run_eval url tasks repeatArg oracle
    res.summary.total_calls = res.episodes.length ∧
    res.summary.ok_calls = res.episodes.countP (fun ep => ep.ok) ∧
    (0 : ℚ) ≤ res.summary.ok_rate ∧ res.summary.ok_rate ≤ 1 ∧
    (res.episodes.length ≠ 0 →
      res.summary.ok_rate = (res.summary.ok_calls : ℚ) / (res.summary.total_calls : ℚ)) ∧
    (res.episodes.length = 0 →
      res.summary.ok_rate = 0 ∧ res.summary.avg_latency_ms = 0) := by
  intro res
  have h := mkSummary_props (mkEpisodes tasks repeatArg oracle)
  exact ⟨h.1, h.2.1, h.2.2.1, h.2.2.2.1,
    fun hne => by
      have := h.2.2.2.2.1 hne
      simpa [res, run_eval, h.1, h.2.1] using this,
    h.2.2.2.2.2⟩

/-- Claim C3 witness at a concrete empty run (no tasks, one repetition). -/
theorem C3_summary_fields_witness :
    (run_eval "http://x" [] 1 oracleOk).summary.ok_rate = 0 ∧
    (run_eval "http://x" [] 1 oracleOk).summary.avg_latency_ms = 0 :=
  (C3_summary_fields "http://x" [] 1 oracleOk).2.2.2.2.2 rfl

/-- Claim C10: `avg_latency_ms` is the mean over ALL episodes including
failed ones, an episode without `elapsed_ms` contributing 0 ms, and the
mean is rounded to 2 decimal places (it is an exact integer multiple of
1/100 within 1/200 of the exact mean). -/
theorem C10_avg_latency_rounded_mean (url : String) (tasks : List Json) (repeatArg : Int)
    (oracle : Nat → Nat → CallOutcome) :
    let eps := (run_eval url tasks repeatArg oracle).episodes
    let raw : ℚ := if eps.length = 0 then 0
      else ((eps.map fun ep => ((ep.elapsed_ms.getD 0 : Int) : ℚ)).sum) / (eps.length : ℚ)
    (run_eval url tasks repeatArg oracle).summary.avg_latency_ms = roundTo2 raw ∧
    roundTo2 raw * 100 = ((round (raw * 100) : ℤ) : ℚ) ∧
    |roundTo2 raw - raw| ≤ 1 / 200 := by
  intro eps raw
  refine ⟨mkSummary_avg eps, ?_, roundTo2_close raw⟩
  unfold roundTo2
  rw [div_mul_cancel₀]
  norm_num

/-- Claim C1: for every (repeat, task) pair processed by `run_eval`, the
resulting CallResult has `ok = true` iff the HTTP status is exactly 200 and
shape validation passed; an exception during the call yields `ok = false`
with `error` set to its description; and every (repeat, task) pair yields
an episode regardless of failures (one failing call never stops the run). -/
theorem C1_ok_iff_and_resilience (url : String) (tasks : List Json) (repeatArg : Int)
    (oracle : Nat → Nat → CallOutcome) (r idx : Nat)
    (hr : r < (max 1 repeatArg).toNat) (hidx : idx < tasks.length) :
    (run_eval url tasks repeatArg oracle).episodes.length
        = (max 1 repeatArg).toNat * tasks.length ∧
    (run_eval url tasks repeatArg oracle).episodes[r * tasks.length + idx]?
        = some (runCall r idx (tasks.get ⟨idx, hidx⟩) (oracle r idx)) ∧
    (∀ task outcome, ((runCall r idx task outcome).ok = true ↔
        (runCall r idx task outcome).status = some 200
          ∧ (runCall r idx task outcome).shape_ok = some true)) ∧
    (∀ task e, runCall r idx task (CallOutcome.failure e)
        = { repeat_index := r, task_index := idx, task_id := task.pyGet "task_id"
            ok := false, error := some e }) := by
  refine ⟨mkEpisodes_length tasks repeatArg oracle,
          mkEpisodes_getElem tasks repeatArg oracle r idx hr hidx, ?_, fun task e => rfl⟩
  intro task outcome
  cases outcome with
  | failure e => simp [runCall]
  | success st el body => simp [runCall]

/-- Claim C1 witness: with two tasks and the second call raising, both
episodes still exist and the failing call's record has `ok = false`. -/
theorem C1_ok_iff_and_resilience_witness :
    (run_eval "http://x" [taskA, taskB] 1 (oracleFailAt 0 1)).episodes.length = 2 ∧
    (runCall 0 1 taskB (CallOutcome.failure "Connection refused")).ok = false := by
  have h := C1_ok_iff_and_resilience "http://x" [taskA, taskB] 1 (oracleFailAt 0 1) 0 1
    (by decide) (by decide)
  refine ⟨h.1, ?_⟩
  rw [h.2.2.2 taskB "Connection refused"]

/-- Claim C2: `run_eval` executes `max(1, repeat)` outer repetitions, each
iterating every task in order; episodes appear in strict repeat-major,
task-minor order; in particular for repeat=2 and tasks [A,B] the episode
order is [A@0, B@0, A@1, B@1]. -/
theorem C2_episode_order (url : String) (tasks : List Json) (repeatArg : Int)
    (oracle : Nat → Nat → CallOutcome) (r idx : Nat)
    (hr : r < (max 1 repeatArg).toNat) (hidx : idx < tasks.length) :
    (run_eval url tasks repeatArg oracle).episodes.length
        = (max 1 repeatArg).toNat * tasks.length ∧
    (∀ ep, (run_eval url tasks repeatArg oracle).episodes[r * tasks.length + idx]? = some ep →
      ep.repeat_index = r ∧ ep.task_index = idx
        ∧ ep.task_id = (tasks.get ⟨idx, hidx⟩).pyGet "task_id") ∧
    ((run_eval url [taskA, taskB] 2 oracleOk).episodes.map
        fun ep => (ep.repeat_index, ep.task_id))
      = [(0, Json.str "A"), (0, Json.str "B"), (1, Json.str "A"), (1, Json.str "B")] := by
  refine ⟨mkEpisodes_length tasks repeatArg oracle, ?_, rfl⟩
  intro ep hep
  have h2 : (run_eval url tasks repeatArg oracle).episodes
      = mkEpisodes tasks repeatArg oracle := rfl
  rw [h2, mkEpisodes_getElem tasks repeatArg oracle r idx hr hidx] at hep
  have hsub := Option.some.inj hep
  subst hsub
  cases h : oracle r idx <;> simp [runCall]

/-- Claim C2 witness: in the concrete repeat=2, tasks=[A,B] run, the
episode at flattened position 1*2+0 is the repetition-1 call of task A. -/
theorem C2_episode_order_witness :
    ((run_eval "http://x" [taskA, taskB] 2 oracleOk).episodes[1 * 2 + 0]?).map
        (fun ep => (ep.repeat_index, ep.task_index, ep.task_id))
      = some (1, 0, Json.str "A") := by
  have h := C2_episode_order "http://x" [taskA, taskB] 2 oracleOk 1 0 (by decide) (by decide)
  have hg : (run_eval "http://x" [taskA, taskB] 2 oracleOk).episodes[1 * 2 + 0]?
      = some (runCall 1 0 taskA (oracleOk 1 0)) := rfl
  have hp := h.2.1 _ hg
  rw [hg]
  exact congrArg some (by simp only [hp.1, hp.2.1, hp.2.2]; try rfl)

/-- Spec-worded element check (amended): the element is an object and its
`type` field, when present with a non-null value, is a string. -/
def actionElemOk (a : Json) : Bool :=
  a.isObj && ((a.pyGet "type").isNull || (a.pyGet "type").isStr)

/-- Spec-worded validity (amended): the body is an object whose `actions`
field is a list all of whose elements pass `actionElemOk`. -/
def specShapeValid (payload : Json) : Bool :=
  payload.isObj &&
    match payload.pyGet "actions" with
    | Json.arr items => items.all actionElemOk
    | _ => false

/-- The claim's element check as literally stated: the `type` field, when
present (even holding a null value), must be a string. -/
def claimedElemOk (a : Json) : Bool :=
  match a with
  | Json.obj fields =>
      match lookupField fields "type" with
      | some t => t.isStr
      | none => true
  | _ => false

/-- The claim's validity predicate as literally stated. -/
def claimedShapeValid (payload : Json) : Bool :=
  payload.isObj &&
    match payload.pyGet "actions" with
    | Json.arr items => items.all claimedElemOk
    | _ => false

/-- A body with one action whose `type` field is present but null. -/
def nullTypeBody : Json :=
  Json.obj [("actions", Json.arr [Json.obj [("type", Json.null)]])]

/-- The validator's message for the first offending element of `actions`. -/
def elemFailMsg (idx : Nat) (a : Json) : String :=
  if a.isObj then "actions[" ++ toString idx ++ "].type must be a string when present"
  else "actions[" ++ toString idx ++ "] is not an object"

/-- The element loop accepts exactly when every element passes the amended
per-element check, independently of the running index. -/
theorem checkActions_ok_iff (items : List Json) : ∀ start,
    (checkActions start items = (true, "ok") ↔ items.all actionElemOk = true) := by
  induction items with
  | nil => intro start; simp [checkActions]
  | cons a rest ih =>
      intro start
      by_cases ha : a.isObj = true
      · by_cases ht : ((a.pyGet "type").isNull || (a.pyGet "type").isStr) = true
        · simp [checkActions, ha, ht, actionElemOk, ih]
        · simp [checkActions, ha, ht, actionElemOk]
      · simp [checkActions, ha, actionElemOk]

/-- The element loop stops at the first offending element and reports its
enumerate index. -/
theorem checkActions_first_bad (items : List Json) : ∀ (start idx : Nat) (h1 : idx < items.length),
    (∀ j (hj : j < idx), actionElemOk (items.get ⟨j, Nat.lt_trans hj h1⟩) = true) →
    actionElemOk (items.get ⟨idx, h1⟩) = false →
    checkActions start items = (false, elemFailMsg (start + idx) (items.get ⟨idx, h1⟩)) := by
  induction items with
  | nil => intro start idx h1; exact absurd h1 (by simp)
  | cons a rest ih =>
      intro start idx h1 hgood hbad
      cases idx with
      | zero =>
          have hb : actionElemOk a = false := hbad
          by_cases ha : a.isObj = true
          · have ht : ((a.pyGet "type").isNull || (a.pyGet "type").isStr) = false := by
              simpa [actionElemOk, ha] using hb
            simp [checkActions, elemFailMsg, ha, ht]
          · simp [checkActions, elemFailMsg, ha]
      | succ k =>
          have hga : actionElemOk a = true := hgood 0 (Nat.succ_pos k)
          have ha : a.isObj = true := by
            have := hga
            simp [actionElemOk] at this
            exact this.1
          have ht : ((a.pyGet "type").isNull || (a.pyGet "type").isStr) = true := by
            have := hga
            simp [actionElemOk, ha] at this
            simpa using this
          have hrec := ih (start + 1) k (Nat.lt_of_succ_lt_succ h1)
            (fun j hj => hgood (j + 1) (Nat.succ_lt_succ hj)) hbad
          have harith : start + 1 + k = start + (k + 1) := by omega
          rw [harith] at hrec
          simpa [checkActions, ha, ht] using hrec

/-- Claim C4 counterexample: on the body
`{"actions": [{"type": null}]}` the validator returns `(true, "ok")`
although the element's `type` field is present and is not a string, so the
claimed characterization is false at this input. -/
theorem C4_counterexample :
    validate_actions_shape nullTypeBody = (true, "ok")
      ∧ claimedShapeValid nullTypeBody = false :=
  ⟨rfl, rfl⟩

/-- Claim C4 (amended): `validate_actions_shape` is pure and returns
`(true, "ok")` iff its input is an object whose `actions` field is a list,
every element is an object, and each element's `type` field, when present
with a non-null value, is a string; a non-object input's message includes
the actual type, a missing-or-non-list `actions` field gives the fixed
message, and a first offending element's message identifies its index. -/
theorem C4_shape_validation (payload : Json) :
    (validate_actions_shape payload = (true, "ok") ↔ specShapeValid payload = true) ∧
    (payload.isObj = false →
      validate_actions_shape payload
        = (false, "response is not an object (" ++ payload.pyTypeName ++ ")")) ∧
    (payload.isObj = true → (payload.pyGet "actions").isArr = false →
      validate_actions_shape payload = (false, "missing or invalid \x27actions\x27 list")) ∧
    (∀ items idx (h1 : idx < items.length), payload.pyGet "actions" = Json.arr items →
      payload.isObj = true →
      (∀ j (hj : j < idx), actionElemOk (items.get ⟨j, Nat.lt_trans hj h1⟩) = true) →
      actionElemOk (items.get ⟨idx, h1⟩) = false →
      validate_actions_shape payload = (false, elemFailMsg idx (items.get ⟨idx, h1⟩))) := by
  refine ⟨?_, ?_, ?_, ?_⟩
  · by_cases ho : payload.isObj = true
    · rcases hact : payload.pyGet "actions" with _ | b | n | s | items | fields
      · simp [validate_actions_shape, specShapeValid, ho, hact]
      · simp [validate_actions_shape, specShapeValid, ho, hact]
      · simp [validate_actions_shape, specShapeValid, ho, hact]
      · simp [validate_actions_shape, specShapeValid, ho, hact]
      · simp [validate_actions_shape, specShapeValid, ho, hact, checkActions_ok_iff]
      · simp [validate_actions_shape, specShapeValid, ho, hact]
    · simp [validate_actions_shape, specShapeValid, ho]
  · intro ho
    simp [validate_actions_shape, ho]
  · intro ho hact
    rcases h : payload.pyGet "actions" with _ | b | n | s | items | fields
    · simp [validate_actions_shape, ho, h]
    · simp [validate_actions_shape, ho, h]
    · simp [validate_actions_shape, ho, h]
    · simp [validate_actions_shape, ho, h]
    · rw [h] at hact
      exact absurd hact (by simp [Json.isArr])
    · simp [validate_actions_shape, ho, h]
  · intro items idx h1 hact ho hgood hbad
    have h0 := checkActions_first_bad items 0 idx h1 hgood hbad
    rw [Nat.zero_add] at h0
    simpa [validate_actions_shape, ho, hact] using h0

/-- Claim C4 witness: a non-object body is rejected with a message naming
its Python type. -/
theorem C4_shape_validation_witness :
    validate_actions_shape (Json.num 3) = (false, "response is not an object (int)") :=
  (C4_shape_validation (Json.num 3)).2.1 rfl

/-- Whether an entry's `step_index` survives `int(item.get("step_index")
or 0)` without raising. -/
def stepIndexCoercible (item : Json) : Bool :=
  match (Json.pyOr (item.pyGet "step_index") (Json.num 0)).pyInt with
  | .ok _ => true
  | .error _ => false

/-- A coercible entry is loaded successfully at any enumerate index. -/
theorem loadTaskEntry_isOk (i : Nat) (item : Json) (h : stepIndexCoercible item = true) :
    ∃ t, loadTaskEntry i item = .ok t := by
  unfold stepIndexCoercible at h
  unfold loadTaskEntry
  rcases hp : (Json.pyOr (item.pyGet "step_index") (Json.num 0)).pyInt with e | n
  · rw [hp] at h; exact absurd h (by simp)
  · exact ⟨_, rfl⟩

/-- The loading loop succeeds and keeps exactly the object entries when
every object entry's `step_index` is coercible. -/
theorem loadTasksLoop_length (data : List Json) : ∀ i : Nat,
    (∀ item ∈ data, item.isObj = true → stepIndexCoercible item = true) →
    ∃ ts, loadTasksLoop i data = .ok ts ∧ ts.length = data.countP Json.isObj := by
  induction data with
  | nil => intro i _; exact ⟨[], rfl, rfl⟩
  | cons item rest ih =>
      intro i h
      by_cases hobj : item.isObj = true
      · obtain ⟨t, ht⟩ := loadTaskEntry_isOk i item (h item (List.mem_cons_self item rest) hobj)
        obtain ⟨ts, hts, hlen⟩ := ih (i + 1) (fun x hx => h x (List.mem_cons_of_mem item hx))
        refine ⟨t :: ts, ?_, ?_⟩
        · simp [loadTasksLoop, hobj, ht, hts]
          try rfl
        · simp [List.countP_cons, hobj, hlen]
      · obtain ⟨ts, hts, hlen⟩ := ih (i + 1) (fun x hx => h x (List.mem_cons_of_mem item hx))
        refine ⟨ts, ?_, ?_⟩
        · simp [loadTasksLoop, hobj, hts]
        · simp [List.countP_cons, hobj, hlen]

/-- A tasks file with a mix of object and non-object entries whose single
object entry has a non-numeric truthy `step_index`. -/
def badStepTasks : Json := Json.arr [Json.num 42, Json.obj [("step_index", Json.str "x")]]

/-- Claim C6 counterexample: on a tasks list of length 2 with exactly one
object entry, loading raises a `ValueError` from `int()` instead of
returning that one task, so `load_tasks` does not always return one Task
per object entry. -/
theorem C6_counterexample :
    load_tasks (some badStepTasks) 5
        = .error "invalid literal for int() with base 10: \x27x\x27" ∧
    (load_tasks (some badStepTasks) 5).isOk = false ∧
    [Json.num 42, Json.obj [("step_index", Json.str "x")]].countP Json.isObj = 1 :=
  ⟨rfl, rfl, rfl⟩

/-- Claim C6 (amended): provided each object entry's `step_index` value
coerces to an integer under Python `int()` (always true when it is absent
or falsy), `load_tasks` returns exactly one Task per object entry, silently
skipping every non-object entry, for both accepted file shapes. -/
theorem C6_skip_non_objects (data : List Json) (n : Int)
    (h : ∀ item ∈ data, item.isObj = true → stepIndexCoercible item = true) :
    ∃ ts, load_tasks (some (Json.arr data)) n = .ok ts
      ∧ load_tasks (some (Json.obj [("tasks", Json.arr data)])) n = .ok ts
      ∧ ts.length = data.countP Json.isObj := by
  obtain ⟨ts, hts, hlen⟩ := loadTasksLoop_length data 0 h
  exact ⟨ts, hts, hts, hlen⟩

/-- Claim C6 witness: `[1, {}]` loads to exactly one task. -/
theorem C6_skip_non_objects_witness :
    ∃ ts, load_tasks (some (Json.arr [Json.num 1, Json.obj []])) 5 = .ok ts
      ∧ load_tasks (some (Json.obj [("tasks", Json.arr [Json.num 1, Json.obj []])])) 5 = .ok ts
      ∧ ts.length = [Json.num 1, Json.obj []].countP Json.isObj := by
  refine C6_skip_non_objects [Json.num 1, Json.obj []] 5 ?_
  intro item hm
  rcases List.mem_cons.mp hm with rfl | hm
  · intro hobj; exact absurd hobj (by decide)
  · rcases List.mem_cons.mp hm with rfl | hm
    · intro _; rfl
    · exact absurd hm (by simp)

/-- The exact `ValueError` message raised by `_load_tasks` on a wrong
top-level shape. -/
def wrongShapeMsg : String :=
  "tasks file must be a JSON list or \x7b\x27tasks\x27:[...]\x7d object"

/-- Claim C7 counterexample: the raised message is the code's literal
`tasks file must be a JSON list or \x7b\x27tasks\x27:[...]\x7d object`, not
the message quoted in the claim. -/
theorem C7_counterexample :
    load_tasks (some (Json.num 3)) 5 = .error wrongShapeMsg ∧
    wrongShapeMsg ≠ "tasks file must be a JSON list or an object with a tasks list" :=
  ⟨rfl, by decide⟩

/-- Claim C7 (amended): when the parsed tasks file is neither a list nor an
object containing a `tasks` list, `load_tasks` fails fast with a
`ValueError` carrying the code's fixed message, returning no tasks. -/
theorem C7_wrong_shape_fails (raw : Json) (n : Int)
    (h1 : raw.isArr = false) (h2 : tasksField raw = none) :
    load_tasks (some raw) n = .error wrongShapeMsg := by
  simp only [load_tasks, h2]
  cases raw with
  | arr items => exact absurd h1 (by simp [Json.isArr])
  | null => rfl
  | bool b => rfl
  | num m => rfl
  | str s => rfl
  | obj fields => rfl

/-- Claim C7 witness: a JSON string at top level fails with the fixed
message. -/
theorem C7_wrong_shape_fails_witness :
    load_tasks (some (Json.str "oops")) 5 = .error wrongShapeMsg :=
  C7_wrong_shape_fails (Json.str "oops") 5 rfl rfl

/-- Spec-side (amended) string field: taken from the entry when truthy
(then coerced by `str()`), else the fallback string. -/
def specStrField (key fallback : String) (item : Json) : String :=
  if (item.pyGet key).truthy then (item.pyGet key).pyStr else fallback

/-- Spec-side (amended) task id: from the entry when truthy (coerced by
`str()`), else `task-<index>`. -/
def specTaskId (i : Nat) (item : Json) : String :=
  if (item.pyGet "task_id").truthy then (item.pyGet "task_id").pyStr
  else "task-" ++ toString i

/-- Spec-side (amended) step index: `int()` of the value when truthy,
else 0. -/
def specStepIndex (item : Json) : Except String Int :=
  if (item.pyGet "step_index").truthy then (item.pyGet "step_index").pyInt else .ok 0

/-- Spec-side history: the entry's value when it is a list, else empty. -/
def specHistory (item : Json) : List Json :=
  match item.pyGet "history" with
  | Json.arr h => h
  | _ => []

/-- A tasks file whose only entry has a present-but-empty `prompt`. -/
def emptyPromptFile : Json := Json.arr [Json.obj [("prompt", Json.str "")]]

/-- Claim C8 counterexample: an entry whose `prompt` field is present but
empty is given the fallback prompt, although the claim allows defaulting
only when the field is absent. -/
theorem C8_counterexample :
    lookupField [("prompt", Json.str "")] "prompt" = some (Json.str "") ∧
    Except.map (fun ts => ts.map Task.prompt) (load_tasks (some emptyPromptFile) 1)
      = .ok ["Template task"] ∧
    ("Template task" : String) ≠ "" :=
  ⟨rfl, rfl, by decide⟩

/-- Claim C8 (amended): each retained entry produces a Task whose
`task_id` is taken from the entry unless absent or falsy (then
`task-<index>`), whose `prompt`/`url`/`snapshot_html` are taken from the
entry unless absent or falsy (then the fixed fallbacks), all coerced by
`str()`; whose `step_index` is `int()` of the value when truthy (raising on
non-coercible values) and 0 otherwise; and whose `history` is the entry's
value when a list, else empty.  Retained entries are processed at their
enumerate index. -/
theorem C8_field_defaults (i : Nat) (item : Json) (h : stepIndexCoercible item = true) :
    (∃ t, loadTaskEntry i item = .ok t
      ∧ t.task_id = specTaskId i item
      ∧ t.prompt = specStrField "prompt" "Template task" item
      ∧ t.url = specStrField "url" "https://example.com" item
      ∧ t.snapshot_html = specStrField "snapshot_html" "<html></html>" item
      ∧ Except.ok t.step_index = specStepIndex item
      ∧ t.history = specHistory item) ∧
    (∀ rest, item.isObj = true → loadTasksLoop i (item :: rest)
      = (loadTaskEntry i item).bind fun t =>
          Except.map (fun ts => t :: ts) (loadTasksLoop (i + 1) rest)) := by
  constructor
  · unfold loadTaskEntry
    rcases hp : (Json.pyOr (item.pyGet "step_index") (Json.num 0)).pyInt with e | n
    · exfalso
      unfold stepIndexCoercible at h
      rw [hp] at h
      simp at h
    · refine ⟨_, rfl, ?_, ?_, ?_, ?_, ?_, rfl⟩
      · by_cases hg : (item.pyGet "task_id").truthy = true <;>
          simp [Json.pyOr, specTaskId, hg, Json.pyStr]
      · by_cases hg : (item.pyGet "prompt").truthy = true <;>
          simp [Json.pyOr, specStrField, hg, Json.pyStr]
      · by_cases hg : (item.pyGet "url").truthy = true <;>
          simp [Json.pyOr, specStrField, hg, Json.pyStr]
      · by_cases hg : (item.pyGet "snapshot_html").truthy = true <;>
          simp [Json.pyOr, specStrField, hg, Json.pyStr]
      · unfold specStepIndex
        by_cases hg : (item.pyGet "step_index").truthy = true
        · have hor : Json.pyOr (item.pyGet "step_index") (Json.num 0)
              = item.pyGet "step_index" := by simp [Json.pyOr, hg]
          rw [hor] at hp
          rw [if_pos hg]
          exact hp.symm
        · have hor : Json.pyOr (item.pyGet "step_index") (Json.num 0) = Json.num 0 := by
            simp [Json.pyOr, hg]
          rw [hor] at hp
          have hn : (0 : Int) = n := by simpa [Json.pyInt] using hp
          rw [if_neg hg, ← hn]
  · intro rest hobj
    rcases he : loadTaskEntry i item with e | t <;>
      rcases hl : loadTasksLoop (i + 1) rest with e2 | ts <;>
        simp [loadTasksLoop, hobj, he, hl] <;> try rfl

/-- Claim C8 witness: an entry with only a `prompt` keeps its prompt, gets
`task-3` at enumerate index 3, and step index 0. -/
theorem C8_field_defaults_witness :
    Except.map (fun t => (t.task_id, t.prompt, t.step_index))
        (loadTaskEntry 3 (Json.obj [("prompt", Json.str "hi")]))
      = .ok ("task-3", "hi", 0) := by
  obtain ⟨⟨t, he, hid, hpr, _, _, hstep, _⟩, _⟩ :=
    C8_field_defaults 3 (Json.obj [("prompt", Json.str "hi")]) rfl
  have h1 : t.task_id = "task-3" := by rw [hid]; rfl
  have h2 : t.prompt = "hi" := by rw [hpr]; rfl
  have h3 : t.step_index = (0 : Int) :=
    Except.ok.inj (hstep.trans (by rfl))
  rw [he]
  exact congrArg Except.ok (by simp only [h1, h2, h3])

/-- The comparator loop aborts at the first failing sub-run with that
sub-run's exit code, having launched exactly the runs up to and including
it, whatever the starting index and accumulated rows. -/
theorem compareLoop_abort (exitCode : Nat → Int) (payload : Nat → Json) :
    ∀ (specs : List RunSpec) (start i : Nat) (acc : List CompareRow)
      (hi : i < specs.length),
    exitCode (start + i) ≠ 0 →
    (∀ j, j < i → exitCode (start + j) = 0) →
    (∀ j (hj : j < i),
      (rowOfPayload (specs.get ⟨j, Nat.lt_trans hj hi⟩) (payload (start + j))).isOk = true) →
    compareLoop exitCode payload start specs acc
      = (.abort (exitCode (start + i)), start + i + 1) := by
  intro specs
  induction specs with
  | nil => intro start i acc hi; exact absurd hi (by simp)
  | cons spec rest ih =>
      intro start i acc hi hne hzero hrows
      cases i with
      | zero =>
          rw [Nat.add_zero] at hne ⊢
          simp [compareLoop, hne]
      | succ k =>
          have h0 : exitCode (start + 0) = 0 := hzero 0 (Nat.succ_pos k)
          rw [Nat.add_zero] at h0
          have hrow0 : (rowOfPayload spec (payload start)).isOk = true := by
            simpa using hrows 0 (Nat.succ_pos k)
          rcases hr : rowOfPayload spec (payload start) with e | row
          · rw [hr] at hrow0
            exact absurd hrow0 (by simp [Except.isOk, Except.toBool])
          · have hrec := ih (start + 1) k (row :: acc) (Nat.lt_of_succ_lt_succ hi)
              (by
                intro hc
                apply hne
                rw [show start + 1 + k = start + (k + 1) by omega] at hc
                exact hc)
              (by
                intro j hj
                have := hzero (j + 1) (Nat.succ_lt_succ hj)
                rwa [show start + (j + 1) = start + 1 + j by omega] at this)
              (by
                intro j hj
                have := hrows (j + 1) (Nat.succ_lt_succ hj)
                rwa [show start + (j + 1) = start + 1 + j by omega] at this)
            have harith : start + 1 + k = start + (k + 1) := by omega
            rw [harith] at hrec
            have harith2 : start + 1 + k + 1 = start + (k + 1) + 1 := by omega
            simpa [compareLoop, h0, hr] using hrec

/-- The two comparator configurations of the spec's scenario. -/
def specsAB : List RunSpec := [RunSpec.mk "a" "m1", RunSpec.mk "b" "m2"]

/-- Exit codes of the scenario: the first sub-run exits 0, all others 1. -/
def exitSecondFails : Nat → Int := fun i => if i = 0 then 0 else 1

/-- A minimal persisted payload (an empty JSON object). -/
def emptyPayload : Nat → Json := fun _ => Json.obj []

/-- Claim C5: the comparator processes configurations strictly in input
order and a sub-run exiting non-zero aborts the whole comparison with that
same exit code: exactly the runs up to the failing one were launched, no
further configuration is attempted, and `compare_summary.json` is never
written. -/
theorem C5_abort_on_subrun_failure (specs : List RunSpec) (exitCode : Nat → Int)
    (payload : Nat → Json) (i : Nat) (hi : i < specs.length)
    (hne : exitCode i ≠ 0) (hzero : ∀ j, j < i → exitCode j = 0)
    (hrows : ∀ j (hj : j < i),
      (rowOfPayload (specs.get ⟨j, Nat.lt_trans hj hi⟩) (payload j)).isOk = true) :
    compare_main specs exitCode payload = (.abort (exitCode i), i + 1) ∧
    summaryWritten (compare_main specs exitCode payload).1 = false := by
  have h := compareLoop_abort exitCode payload specs 0 i [] hi
    (by rwa [Nat.zero_add]) (by intro j hj; have := hzero j hj; rwa [Nat.zero_add])
    (by intro j hj; have := hrows j hj; rwa [Nat.zero_add])
  rw [Nat.zero_add] at h
  refine ⟨h, ?_⟩
  show summaryWritten (compareLoop exitCode payload 0 specs []).1 = false
  rw [h]
  rfl

/-- Claim C5 witness: with runs `a:m1` (exit 0) and `b:m2` (exit 1), the
comparator aborts with exit code 1 after launching both sub-runs, and the
aggregate is not written. -/
theorem C5_abort_on_subrun_failure_witness :
    compare_main specsAB exitSecondFails emptyPayload = (.abort 1, 2) ∧
    summaryWritten (compare_main specsAB exitSecondFails emptyPayload).1 = false := by
  have h := C5_abort_on_subrun_failure specsAB exitSecondFails emptyPayload 1
    (by decide) (by decide)
    (by intro j hj; have hj0 : j = 0 := by omega
        subst hj0; rfl)
    (by intro j hj; have hj0 : j = 0 := by omega
        subst hj0; rfl)
  exact h

/-- Spec-side collapse: walk the characters carrying whether the previous
character sat inside a disallowed run; safe characters pass through, each
maximal disallowed run contributes exactly one underscore. -/
def collapseRuns : Bool → List Char → List Char
  | _, [] => []
  | prevBad, c :: rest =>
    if isSlugSafe c then c :: collapseRuns false rest
    else if prevBad then collapseRuns true rest
    else Char.ofNat 95 :: collapseRuns true rest

/-- The source's `dropWhile`-based substitution agrees with the spec-side
run-collapsing walk. -/
theorem collapseUnsafe_eq_collapseRuns (cs : List Char) :
    collapseUnsafe cs = collapseRuns false cs ∧
    collapseRuns true cs = collapseUnsafe (cs.dropWhile fun d => !isSlugSafe d) := by
  induction cs with
  | nil => exact ⟨by simp [collapseUnsafe, collapseRuns], by simp [collapseUnsafe, collapseRuns]⟩
  | cons c rest ih =>
      by_cases hc : isSlugSafe c = true
      · have hu : collapseUnsafe (c :: rest) = c :: collapseUnsafe rest := by
          simp [collapseUnsafe, hc]
        have hdrop : (c :: rest).dropWhile (fun d => !isSlugSafe d) = c :: rest := by
          simp [List.dropWhile_cons, hc]
        refine ⟨?_, ?_⟩
        · rw [hu, show collapseRuns false (c :: rest) = c :: collapseRuns false rest from by
            simp [collapseRuns, hc], ih.1]
        · rw [hdrop, hu, show collapseRuns true (c :: rest) = c :: collapseRuns false rest from by
            simp [collapseRuns, hc], ih.1]
      · have hu : collapseUnsafe (c :: rest)
            = Char.ofNat 95 :: collapseUnsafe (rest.dropWhile fun d => !isSlugSafe d) := by
          simp [collapseUnsafe, hc]
        have hdrop : (c :: rest).dropWhile (fun d => !isSlugSafe d)
            = rest.dropWhile (fun d => !isSlugSafe d) := by
          simp [List.dropWhile_cons, hc]
        refine ⟨?_, ?_⟩
        · rw [hu, show collapseRuns false (c :: rest)
              = Char.ofNat 95 :: collapseRuns true rest from by
            simp [collapseRuns, hc], ih.2]
        · rw [hdrop, show collapseRuns true (c :: rest) = collapseRuns true rest from by
            simp [collapseRuns, hc], ih.2]

/-- Every character emitted by the collapsing walk is in `[a-z0-9._-]`. -/
theorem collapseRuns_safe (cs : List Char) :
    ∀ b, ∀ c ∈ collapseRuns b cs, isSlugSafe c = true := by
  induction cs with
  | nil => intro b c hc; simp [collapseRuns] at hc
  | cons a rest ih =>
      intro b c hc
      by_cases ha : isSlugSafe a = true
      · rw [show collapseRuns b (a :: rest) = a :: collapseRuns false rest from by
          simp [collapseRuns, ha]] at hc
        rcases List.mem_cons.mp hc with rfl | hc
        · exact ha
        · exact ih false c hc
      · cases b with
        | true =>
            rw [show collapseRuns true (a :: rest) = collapseRuns true rest from by
              simp [collapseRuns, ha]] at hc
            exact ih true c hc
        | false =>
            rw [show collapseRuns false (a :: rest)
                = Char.ofNat 95 :: collapseRuns true rest from by
              simp [collapseRuns, ha]] at hc
            rcases List.mem_cons.mp hc with rfl | hc
            · decide
            · exact ih true c hc

/-- Claim C9: every RunConfiguration's slug is `provider__model`
lowercased with each maximal run of characters outside `[a-z0-9._-]`
collapsed to a single underscore (hence filesystem-safe), and in
particular provider "OpenAI" with model "GPT 5.2!" yields
`openai__gpt_5.2_`. -/
theorem C9_slug_normalization (spec : RunSpec) :
    spec.slug = String.mk (collapseRuns false
        ((spec.provider ++ "__" ++ spec.model).toList.map Char.toLower)) ∧
    (∀ c ∈ spec.slug.toList, isSlugSafe c = true) ∧
    (RunSpec.mk "OpenAI" "GPT 5.2!").slug = "openai__gpt_5.2_" := by
  have h1 : spec.slug = String.mk (collapseRuns false
      ((spec.provider ++ "__" ++ spec.model).toList.map Char.toLower)) := by
    unfold RunSpec.slug
    rw [(collapseUnsafe_eq_collapseRuns _).1]
  refine ⟨h1, ?_, ?_⟩
  · intro c hc
    rw [h1] at hc
    exact collapseRuns_safe _ false c hc
  · show String.mk (collapseUnsafe (("OpenAI__GPT 5.2!" : String).toList.map Char.toLower))
        = "openai__gpt_5.2_"
    rw [(collapseUnsafe_eq_collapseRuns _).1]
    decide

end AutoppiaEval
